import Mathlib

/-
Verification development for the DLDeploy interactive assistant (src/r1.py).

The Python source is shallowly embedded: file contents are modelled as Lean
strings (sequences of code points, matching Python str), the filesystem seen
by a directory walk is modelled as a finite tree of directories carrying the
per-file facts the code observes (name, whether os.path.getsize succeeds and
its value, the result of the binary sniff, and the result of reading the file
as UTF-8 text), and Python exceptions are modelled as explicit error values
threaded with Except.  Each definition mirrors one function or constant of
src/r1.py; deviations of the source from the natural-language specification
are settled by the theorems at the end of the file.
-/

namespace R1

set_option maxRecDepth 8192

/-- Errors that `read_local_file` (src/r1.py line 100) can raise on an
existing file: an OSError subclass, or a UnicodeDecodeError (which in Python
is a subclass of ValueError, not of OSError). -/
inductive ReadErr where
  | osError
  | decodeError
deriving DecidableEq

/-- Python exception classes relevant to the except-clauses of the source. -/
inductive PyExc where
  | osError
  | valueError
  | unicodeDecodeError
deriving DecidableEq

/-- Reinterpret a read failure as the Python exception class it raises. -/
def toPyExc : ReadErr → PyExc
  | ReadErr.osError => PyExc.osError
  | ReadErr.decodeError => PyExc.unicodeDecodeError

/-- Membership of an exception in the OSError hierarchy. -/
def isOSErrorExc : PyExc → Bool
  | PyExc.osError => true
  | _ => false

/-- Membership of an exception in the ValueError hierarchy; in Python,
UnicodeDecodeError is a subclass of ValueError. -/
def isValueErrorExc : PyExc → Bool
  | PyExc.valueError => true
  | PyExc.unicodeDecodeError => true
  | _ => false

/-- The `except (OSError, ValueError)` clause of the `/add` handler in `main`
(src/r1.py line 241). -/
def mainAddHandles (e : PyExc) : Bool :=
  isOSErrorExc e || isValueErrorExc e

/-- Conversation roles (the `role` field of entries of
`conversation_history`, src/r1.py line 97). -/
inductive Role where
  | system
  | user
  | assistant
deriving DecidableEq

/-- One entry of `conversation_history`. -/
structure Entry where
  role : Role
  content : String
deriving DecidableEq

/-- The single-quote character, written via its code point. -/
def quoteS : String := String.mk [ Char.ofNat 39 ]

/-- Content of the system entry appended by `add_file_to_conversation`
(src/r1.py lines 129-132). -/
def fileEntryContent (nm c : String) : String :=
  "Content of file " ++ quoteS ++ nm ++ quoteS ++ ":\n\n" ++ c

/-- Facts about one file on disk, as observed by the source: its base name,
whether `os.path.getsize` succeeds and the size it reports, the verdict of
`is_binary_file` (which already folds its own I/O errors into `true`,
src/r1.py lines 191-197), and the outcome of reading the file as UTF-8
text. -/
structure FileMeta where
  name : String
  statOk : Bool
  size : Nat
  isBinary : Bool
  readResult : Except ReadErr String

/-- Constant MAX_FILE_SIZE (src/r1.py line 20). -/
def MAX_FILE_SIZE : Nat := 5000000

/-- Constant MAX_FILES_TO_PROCESS (src/r1.py line 21). -/
def MAX_FILES_TO_PROCESS : Nat := 1000

/-- Constant EXCLUDED_FILES (src/r1.py lines 22-28); the Python set is
modelled as a list queried with `contains`. -/
def EXCLUDED_FILES : List String :=
  [ ".DS_Store", "Thumbs.db", ".gitignore", ".python-version", "uv.lock", ".uv", "uvenv", ".uvenv", ".venv", "venv",
    "__pycache__", ".pytest_cache", ".coverage", ".mypy_cache", "node_modules", "package-lock.json", "yarn.lock",
    "pnpm-lock.yaml", ".next", ".nuxt", "dist", "build", ".cache", ".parcel-cache", ".turbo", ".vercel", ".output",
    ".contentlayer", "out", "coverage", ".nyc_output", "storybook-static", ".env", ".env.local", ".env.development",
    ".env.production", ".git", ".svn", ".hg", "CVS" ]

/-- Constant EXCLUDED_EXTENSIONS (src/r1.py lines 29-35). -/
def EXCLUDED_EXTENSIONS : List String :=
  [ ".png", ".jpg", ".jpeg", ".gif", ".ico", ".svg", ".webp", ".avif", ".mp4", ".webm", ".mov", ".mp3", ".wav", ".ogg",
    ".zip", ".tar", ".gz", ".7z", ".rar", ".exe", ".dll", ".so", ".dylib", ".bin", ".pdf", ".doc", ".docx", ".xls",
    ".xlsx", ".ppt", ".pptx", ".pyc", ".pyo", ".pyd", ".egg", ".whl", ".uv", ".uvenv", ".db", ".sqlite", ".sqlite3",
    ".log", ".idea", ".vscode", ".map", ".chunk.js", ".chunk.css", ".min.js", ".min.css", ".bundle.js", ".bundle.css",
    ".cache", ".tmp", ".temp", ".ttf", ".otf", ".woff", ".woff2", ".eot" ]

/-- Python `name.startswith(".")`: the first character is a dot. -/
def startsWithDot (s : String) : Bool :=
  match s.toList with
  | [] => false
  | c :: _ => c == '.'

/-- Index of the rightmost dot of a character list, if any. -/
def lastDotIdx (cs : List Char) : Option Nat :=
  match cs.reverse.findIdx? (fun c => c == '.') with
  | none => none
  | some j => some (cs.length - 1 - j)

/-- Python `os.path.splitext(name)[1]` for a base name: the suffix from the
rightmost dot, provided some earlier character of the name is not itself a
dot (so names made of leading dots, such as hidden files, have no
extension). -/
def splitextExt (s : String) : String :=
  match lastDotIdx s.toList with
  | none => String.mk []
  | some i =>
    if (s.toList.take i).any (fun c => c != '.') then String.mk (s.toList.drop i)
    else String.mk []

/-- Python `ext.lower()` applied to the extension. -/
def extLowerOf (s : String) : String :=
  String.mk ((splitextExt s).toList.map Char.toLower)

/-- The name-based skip test of the walk (src/r1.py line 155):
`file.startswith(".") or file in EXCLUDED_FILES`. -/
def nameExcluded (n : String) : Bool :=
  startsWithDot n || EXCLUDED_FILES.contains n

/-- The extension-based skip test of the walk (src/r1.py lines 159-160). -/
def extExcluded (n : String) : Bool :=
  EXCLUDED_EXTENSIONS.contains (extLowerOf n)

/-- Verdict of `is_binary_file` (src/r1.py lines 191-197); the sniff of the
first 1024 raw bytes, with any exception already folded into `true`, is
environment data carried by the file record. -/
def is_binary_file (f : FileMeta) : Bool := f.isBinary

/-- Python `content.replace(old, new, 1)` on code-point lists: replace the
leftmost occurrence of `old` (the empty `old` matches at position 0); if
`old` does not occur, the input is returned unchanged. -/
def listReplaceFirst (old new : List Char) : List Char → List Char
  | [] => if old.isPrefixOf ([] : List Char) then new ++ ([] : List Char).drop old.length else []
  | c :: rest =>
    if old.isPrefixOf (c :: rest) then new ++ (c :: rest).drop old.length
    else c :: listReplaceFirst old new rest

/-- Python `content.replace(old, new, 1)` on strings (src/r1.py line 117). -/
def pyReplaceOnce (s old new : String) : String :=
  String.mk (listReplaceFirst old.toList new.toList s.toList)

/-- Outcome classification of `apply_diff_edit` (src/r1.py lines 113-123). -/
inductive EditStatus where
  | applied
  | fileNotFoundCaught
  | valueErrorCaught
  | uncaughtError (e : ReadErr)
deriving DecidableEq

/-- Observable result of one `apply_diff_edit` call: the reported status,
the file state after the call, and whether `create_file` wrote the file. -/
structure EditOutcome where
  status : EditStatus
  finalFile : Option (Except ReadErr String)
  writePerformed : Bool

/-- Shallow embedding of `apply_diff_edit` (src/r1.py lines 113-123).  The
target file is `none` when missing, otherwise the outcome of reading it as
text.  `read_local_file` raising FileNotFoundError is caught (line 120); a
UnicodeDecodeError is a ValueError and is caught by line 122; any other
OSError propagates out of the function.  On a successful read the content
has `content.replace(original, new, 1)` applied and is written back via
`create_file` unconditionally — there is no occurrence check. -/
def apply_diff_edit (file : Option (Except ReadErr String)) (old new : String) : EditOutcome :=
  match file with
  | none => EditOutcome.mk EditStatus.fileNotFoundCaught none false
  | some (Except.error ReadErr.decodeError) =>
    EditOutcome.mk EditStatus.valueErrorCaught (some (Except.error ReadErr.decodeError)) false
  | some (Except.error ReadErr.osError) =>
    EditOutcome.mk (EditStatus.uncaughtError ReadErr.osError) (some (Except.error ReadErr.osError)) false
  | some (Except.ok content) =>
    EditOutcome.mk EditStatus.applied (some (Except.ok (pyReplaceOnce content old new))) true

/-- Shallow embedding of `add_file_to_conversation` (src/r1.py lines
125-135).  On a successful read a system entry is appended; an OSError is
caught inside the function (the history is unchanged and `false` reports the
failure message); a UnicodeDecodeError is not an OSError and propagates. -/
def add_file_to_conversation (hist : List Entry) (f : FileMeta) : Except ReadErr (List Entry × Bool) :=
  match f.readResult with
  | Except.ok c => Except.ok (hist ++ [ Entry.mk Role.system (fileEntryContent f.name c) ], true)
  | Except.error ReadErr.osError => Except.ok (hist, false)
  | Except.error ReadErr.decodeError => Except.error ReadErr.decodeError

/-- The single-file branch of the `/add` handler in `main` (src/r1.py lines
239-242): `add_file_to_conversation` under `except (OSError, ValueError)`.
Returns the conversation history after the command and whether the file was
added. -/
def mainAddFile (hist : List Entry) (f : FileMeta) : List Entry × Bool :=
  match add_file_to_conversation hist f with
  | Except.ok r => r
  | Except.error e => if mainAddHandles (toPyExc e) then (hist, false) else (hist, false)

mutual
/-- A directory on disk: its base name, its subdirectories and its regular
files, in the order `os.walk` lists them. -/
inductive FSTree where
  | dir (nm : String) (subs : FSForest) (files : List FileMeta)

/-- A finite ordered list of sibling directories. -/
inductive FSForest where
  | nil
  | cons (t : FSTree) (ts : FSForest)
end

/-- Base name of a directory. -/
def dirName : FSTree → String
  | FSTree.dir nm _ _ => nm

/-- The pruning test of the walk (src/r1.py line 149):
`not d.startswith(".") and d not in EXCLUDED_FILES`. -/
def keepDir (t : FSTree) : Bool :=
  !(startsWithDot (dirName t) || EXCLUDED_FILES.contains (dirName t))

/-- Concatenation of forests. -/
def appendF : FSForest → FSForest → FSForest
  | FSForest.nil, b => b
  | FSForest.cons t ts, b => FSForest.cons t (appendF ts b)

mutual
/-- The sequence of `(root, dirs, files)` entries that the pruned top-down
`os.walk` of src/r1.py lines 144-149 yields, keeping only each entry's file
list: the root directory is always yielded, and a subdirectory is descended
into exactly when it survives the in-place pruning of `dirs`. -/
def walkEntries : FSTree → List (List FileMeta)
  | FSTree.dir _ subs files => files :: walkEntriesForest subs

/-- Walk entries contributed by a forest of sibling subdirectories. -/
def walkEntriesForest : FSForest → List (List FileMeta)
  | FSForest.nil => []
  | FSForest.cons t ts => (if keepDir t then walkEntries t else []) ++ walkEntriesForest ts
end

/-- Reasons for which the walk places a file on `skipped_files`
(src/r1.py lines 155-178); `oversize` corresponds to the entry suffixed
with the exceeds-size-limit note on line 167, `statError` to the
`except OSError` on line 177 catching `os.path.getsize`. -/
inductive SkipReason where
  | hiddenOrExcludedName
  | excludedExtension
  | statError
  | oversize
  | binary
deriving DecidableEq

/-- Mutable state of `add_directory_to_conversation` (src/r1.py lines
140-142 and the global `conversation_history`). -/
structure WalkState where
  conv : List Entry
  total : Nat
  added : List String
  skipped : List (String × SkipReason)

/-- Record a skipped file (the `skipped_files.append` calls). -/
def skipFile (st : WalkState) (n : String) (r : SkipReason) : WalkState :=
  WalkState.mk st.conv st.total (st.added) (st.skipped ++ [ (n, r) ])

/-- Record an accepted file (src/r1.py lines 174-176): the conversation
history as returned by `add_file_to_conversation`, then
`added_files.append`, then `total_files_processed += 1`. -/
def acceptFile (st : WalkState) (conv2 : List Entry) (n : String) : WalkState :=
  WalkState.mk conv2 (st.total + 1) (st.added ++ [ n ]) st.skipped

/-- The inner loop of the walk over the files of one directory (src/r1.py
lines 151-178).  The file counter is checked before each file; name,
extension, size and binary tests are applied in source order; an OSError
from `os.path.getsize` demotes the file to skipped; `add_file_to_conversation`
catches its own OSError internally, so the file is recorded as added and
counted even then, while a UnicodeDecodeError propagates out of the walk. -/
def processFiles : List FileMeta → WalkState → Except ReadErr WalkState
  | [], st => Except.ok st
  | f :: fs, st =>
    if MAX_FILES_TO_PROCESS ≤ st.total then Except.ok st
    else if nameExcluded f.name then processFiles fs (skipFile st f.name SkipReason.hiddenOrExcludedName)
    else if extExcluded f.name then processFiles fs (skipFile st f.name SkipReason.excludedExtension)
    else if f.statOk = false then processFiles fs (skipFile st f.name SkipReason.statError)
    else if MAX_FILE_SIZE < f.size then processFiles fs (skipFile st f.name SkipReason.oversize)
    else if is_binary_file f then processFiles fs (skipFile st f.name SkipReason.binary)
    else
      match add_file_to_conversation st.conv f with
      | Except.error e => Except.error e
      | Except.ok (conv2, _) => processFiles fs (acceptFile st conv2 f.name)

/-- The outer loop of the walk over the entries yielded by `os.walk`
(src/r1.py lines 144-147): before each directory entry the counter is
checked against the ceiling and, when it has been reached, the
maximum-file-limit warning is printed (the returned Bool) and the walk
breaks. -/
def processDirs : List (List FileMeta) → WalkState → Except ReadErr (WalkState × Bool)
  | [], st => Except.ok (st, false)
  | files :: rest, st =>
    if MAX_FILES_TO_PROCESS ≤ st.total then Except.ok (st, true)
    else
      match processFiles files st with
      | Except.error e => Except.error e
      | Except.ok st2 => processDirs rest st2

/-- Shallow embedding of `add_directory_to_conversation` (src/r1.py lines
137-189) started from a given conversation history: the walk either
completes with a final state plus the limit-warning flag, or an uncaught
exception escapes it. -/
def addDirectory (hist : List Entry) (t : FSTree) : Except ReadErr (WalkState × Bool) :=
  processDirs (walkEntries t) (WalkState.mk hist 0 [] [])

/-- Outcome of the `/add` handler of `main` for a directory path: the walk
finished, or its exception was caught by `except (OSError, ValueError)` and
reported, or an exception escaped the handler and crashed the session. -/
inductive MainOutcome where
  | finished (st : WalkState) (limitHit : Bool)
  | reported (e : ReadErr)
  | crash (e : ReadErr)

/-- The directory branch of the `/add` handler (src/r1.py lines 237-242). -/
def mainAddDir (hist : List Entry) (t : FSTree) : MainOutcome :=
  match addDirectory hist t with
  | Except.ok (st, hit) => MainOutcome.finished st hit
  | Except.error e =>
    if mainAddHandles (toPyExc e) then MainOutcome.reported e else MainOutcome.crash e

/-- Test for the session-terminating outcome. -/
def isCrash : MainOutcome → Bool
  | MainOutcome.crash _ => true
  | _ => false

/-- Number of accepted files of a finished walk, `none` if the walk was
aborted by an exception. -/
def addedCountOf : Except ReadErr (WalkState × Bool) → Option Nat
  | Except.ok (st, _) => some st.added.length
  | Except.error _ => none

/-- Limit-warning flag of a finished walk, `none` if the walk was aborted
by an exception. -/
def limitHitOf : Except ReadErr (WalkState × Bool) → Option Bool
  | Except.ok (_, hit) => some hit
  | Except.error _ => none

/-- A file the walk would accept and count when it reaches it: it passes the
name, extension, stat, size and binary-sniff tests.  Files whose read then
fails with an OSError are still counted (src/r1.py lines 174-176 run after
`add_file_to_conversation` caught the error internally). -/
def candidate (f : FileMeta) : Bool :=
  !nameExcluded f.name && !extExcluded f.name && f.statOk &&
    !(decide (MAX_FILE_SIZE < f.size)) && !is_binary_file f

/-- Number of acceptable files in one directory entry. -/
def candCount (files : List FileMeta) : Nat :=
  files.countP (fun f => candidate f)

/-- Number of acceptable files across a list of walk entries. -/
def candSum : List (List FileMeta) → Nat
  | [] => 0
  | files :: rest => candCount files + candSum rest

/-- A file whose text read does not raise UnicodeDecodeError. -/
def fileNoDecode (f : FileMeta) : Bool :=
  match f.readResult with
  | Except.error ReadErr.decodeError => false
  | _ => true

/-- No file of any walk entry raises UnicodeDecodeError when read. -/
def noDecodeEntries (entries : List (List FileMeta)) : Bool :=
  entries.all (fun files => files.all fileNoDecode)

/-- A user-supplied path as `pathlib.Path(path_str)` parses it: whether it
is absolute, and its segments; `PurePath` normalisation has already removed
single-dot segments, but keeps parent-reference segments. -/
structure PyPath where
  absolute : Bool
  segs : List String
deriving DecidableEq

/-- One step of `Path.resolve()` on a symlink-free filesystem: a
parent-reference segment removes the last resolved segment (at the root it
is a no-op), any other segment is appended. -/
def resolveStep (acc : List String) (seg : String) : List String :=
  if seg = ".." then acc.dropLast else acc ++ [ seg ]

/-- Python `Path(path_str).resolve()` on a symlink-free filesystem: relative
paths are anchored at the current working directory, then segments are
resolved left to right.  The result is the list of segments of the absolute
canonical path (the leading root of `parts` is left implicit). -/
def pyResolve (cwd : List String) (p : PyPath) : List String :=
  p.segs.foldl resolveStep (if p.absolute then [] else cwd)

/-- Error raised by `normalize_path`. -/
inductive PathErr where
  | invalidPath
deriving DecidableEq

/-- Shallow embedding of `normalize_path` (src/r1.py lines 199-204): resolve
first, then fail if a parent-reference segment survives in the resolved
parts. -/
def normalize_path (cwd : List String) (p : PyPath) : Except PathErr (List String) :=
  let r := pyResolve cwd p
  if r.contains ".." then Except.error PathErr.invalidPath else Except.ok r

/-- A JSON value, the raw payload the model returns.  `Modelled from the
spec:` the function `stream_openai_response` that obtains and parses this
payload is called at src/r1.py line 246 but is not part of src/, so the raw
response shape follows the spec (section 6): a JSON-like object. -/
inductive JValue where
  | str (v : String)
  | num (v : Int)
  | boolean (v : Bool)
  | null
  | arr (vs : List JValue)
  | obj (fields : List (String × JValue))

/-- First binding of a key in a JSON object. -/
def lookupJ (k : String) : List (String × JValue) → Option JValue
  | [] => none
  | (k2, v) :: rest => if k2 = k then some v else lookupJ k rest

/-- A JSON value read as text, failing on any other type. -/
def asStr : JValue → Option String
  | JValue.str v => some v
  | _ => none

/-- The FileToCreate model (src/r1.py lines 55-57). -/
structure FileToCreate where
  path : String
  content : String
deriving DecidableEq

/-- The FileToEdit model (src/r1.py lines 59-62). -/
structure FileToEdit where
  path : String
  original_snippet : String
  new_snippet : String
deriving DecidableEq

/-- The AssistantResponse model (src/r1.py lines 64-67): `assistant_reply`
is required text, the two instruction lists are optional with default
None. -/
structure AssistantResponse where
  assistant_reply : String
  files_to_create : Option (List FileToCreate)
  files_to_edit : Option (List FileToEdit)

/-- Validation of one files_to_create entry: an object supplying the two
required text fields. -/
def parseCreateEntry (j : JValue) : Option FileToCreate :=
  match j with
  | JValue.obj fs =>
    match (lookupJ "path" fs).bind asStr, (lookupJ "content" fs).bind asStr with
    | some p, some c => some (FileToCreate.mk p c)
    | _, _ => none
  | _ => none

/-- Validation of one files_to_edit entry: an object supplying the three
required text fields. -/
def parseEditEntry (j : JValue) : Option FileToEdit :=
  match j with
  | JValue.obj fs =>
    match (lookupJ "path" fs).bind asStr, (lookupJ "original_snippet" fs).bind asStr,
          (lookupJ "new_snippet" fs).bind asStr with
    | some p, some o, some n => some (FileToEdit.mk p o n)
    | _, _, _ => none
  | _ => none

/-- Validation of an optional list field: absent or null means None; present
means an array every element of which must validate. -/
def parseOptList (p : JValue → Option α) : Option JValue → Option (Option (List α))
  | none => some none
  | some JValue.null => some none
  | some (JValue.arr xs) => (xs.mapM p).map some
  | some _ => none

/-- Failure mode of interpretation. -/
inductive SchemaErr where
  | schemaError
deriving DecidableEq

/-- The Response Interpreter.  `Modelled from the spec:` the source calls
`stream_openai_response` (src/r1.py line 246), which is not part of src/;
interpretation is modelled from spec section 4.3 together with the
AssistantResponse pydantic model that is in src (lines 64-67): the payload
must be an object, `assistant_reply` must be present and text, the
instruction lists are optional but when present every entry must supply all
its required text fields; any structural mismatch fails the whole
interpretation, and unknown fields are ignored. -/
def interpret (j : JValue) : Except SchemaErr AssistantResponse :=
  match j with
  | JValue.obj fs =>
    match (lookupJ "assistant_reply" fs).bind asStr,
          parseOptList parseCreateEntry (lookupJ "files_to_create" fs),
          parseOptList parseEditEntry (lookupJ "files_to_edit" fs) with
    | some r, some cs, some es => Except.ok (AssistantResponse.mk r cs es)
    | _, _, _ => Except.error SchemaErr.schemaError
  | _ => Except.error SchemaErr.schemaError

/-- A filesystem mutation instruction extracted from a validated response. -/
inductive Mutation where
  | createM (path content : String)
  | editM (path original new : String)
deriving DecidableEq

/-- Mutations a validated response gives rise to (src/r1.py lines 248-259):
creates are applied unconditionally, edits only after user confirmation. -/
def mutationsOf (r : AssistantResponse) (confirm : Bool) : List Mutation :=
  (r.files_to_create.getD []).map (fun fc => Mutation.createM fc.path fc.content) ++
    (if confirm then (r.files_to_edit.getD []).map
      (fun fe => Mutation.editM fe.path fe.original_snippet fe.new_snippet) else [])

/-- Mutations applied for one raw model payload: none at all when
interpretation fails. -/
def turnMutations (j : JValue) (confirm : Bool) : List Mutation :=
  match interpret j with
  | Except.error _ => []
  | Except.ok r => mutationsOf r confirm

/-- A plain text file content with no occurrence of the snippet below. -/
def helloContent : String := "hello world"

/-- A snippet that does not occur in `helloContent`. -/
def missingSnippet : String := "xyz"

/-- A replacement text. -/
def replacementText : String := "NEW"

/-- A small text file that passes every filter of the walk. -/
def plainFile : FileMeta :=
  FileMeta.mk "a" true 1 false (Except.ok "x")

/-- A directory holding 1001 acceptable files and no subdirectory. -/
def bigTree : FSTree :=
  FSTree.dir "big" FSForest.nil (List.replicate 1001 plainFile)

/-- A text file that passes the binary sniff but whose bytes are not valid
UTF-8, so reading it as text raises UnicodeDecodeError. -/
def undecodableFile : FileMeta :=
  FileMeta.mk "bad.txt" true 10 false (Except.error ReadErr.decodeError)

/-- A well-formed text file listed after the undecodable one. -/
def laterGoodFile : FileMeta :=
  FileMeta.mk "good.txt" true 10 false (Except.ok "ok")

/-- A directory whose file list holds an undecodable file followed by a
well-formed one. -/
def decodeTree : FSTree :=
  FSTree.dir "root" FSForest.nil [ undecodableFile, laterGoodFile ]

/-- A dependency directory whose name is on the denylist, holding a file. -/
def nodeModulesDir : FSTree :=
  FSTree.dir "node_modules" FSForest.nil [ plainFile ]

/-- A project tree containing the denylisted subdirectory. -/
def projWithDeps : FSTree :=
  FSTree.dir "proj" (FSForest.cons nodeModulesDir FSForest.nil) [ laterGoodFile ]

/-- The same project tree with the denylisted subdirectory removed. -/
def projWithoutDeps : FSTree :=
  FSTree.dir "proj" FSForest.nil [ laterGoodFile ]

/-- A file that fails every eligibility rule of the Path Filter — hidden
and denylisted name, oversize, flagged binary by the sniff — but reads fine
as text. -/
def ineligibleButReadable : FileMeta :=
  FileMeta.mk ".env" true 6000000 true (Except.ok "SECRET=1")

/-- A file of exactly the size ceiling, otherwise unremarkable. -/
def atLimitFile : FileMeta :=
  FileMeta.mk "data.txt" true 5000000 false (Except.ok "payload")

/-- A file one byte over the size ceiling, otherwise unremarkable. -/
def overLimitFile : FileMeta :=
  FileMeta.mk "data.txt" true 5000001 false (Except.ok "payload")

/-- A proposal payload missing `assistant_reply`: it only carries a create
instruction. -/
def replyLessPayload : JValue :=
  JValue.obj
    [ ( "files_to_create",
        JValue.arr [ JValue.obj [ ( "path", JValue.str "a.txt" ), ( "content", JValue.str "hi" ) ] ] ) ]

lemma walkEntries_dir (nm : String) (subs : FSForest) (files : List FileMeta) :
    walkEntries (FSTree.dir nm subs files) = files :: walkEntriesForest subs := by
  rw [walkEntries]

lemma walkEntriesForest_nil : walkEntriesForest FSForest.nil = [] := by
  rw [walkEntriesForest]

lemma walkEntriesForest_cons (t : FSTree) (ts : FSForest) :
    walkEntriesForest (FSForest.cons t ts) =
      (if keepDir t then walkEntries t else []) ++ walkEntriesForest ts := by
  rw [walkEntriesForest]

lemma walkEntriesForest_append : ∀ (a b : FSForest),
    walkEntriesForest (appendF a b) = walkEntriesForest a ++ walkEntriesForest b
  | FSForest.nil, b => by rw [appendF, walkEntriesForest_nil, List.nil_append]
  | FSForest.cons t ts, b => by
    rw [appendF, walkEntriesForest_cons, walkEntriesForest_cons,
      walkEntriesForest_append ts b, List.append_assoc]

lemma processFiles_cons (f : FileMeta) (fs : List FileMeta) (st : WalkState) :
    processFiles (f :: fs) st =
      if MAX_FILES_TO_PROCESS ≤ st.total then Except.ok st
      else if nameExcluded f.name then processFiles fs (skipFile st f.name SkipReason.hiddenOrExcludedName)
      else if extExcluded f.name then processFiles fs (skipFile st f.name SkipReason.excludedExtension)
      else if f.statOk = false then processFiles fs (skipFile st f.name SkipReason.statError)
      else if MAX_FILE_SIZE < f.size then processFiles fs (skipFile st f.name SkipReason.oversize)
      else if is_binary_file f then processFiles fs (skipFile st f.name SkipReason.binary)
      else
        match add_file_to_conversation st.conv f with
        | Except.error e => Except.error e
        | Except.ok (conv2, _) => processFiles fs (acceptFile st conv2 f.name) := rfl

lemma processDirs_cons (files : List FileMeta) (rest : List (List FileMeta)) (st : WalkState) :
    processDirs (files :: rest) st =
      if MAX_FILES_TO_PROCESS ≤ st.total then Except.ok (st, true)
      else
        match processFiles files st with
        | Except.error e => Except.error e
        | Except.ok st2 => processDirs rest st2 := rfl

lemma processFiles_error (fs : List FileMeta) :
    ∀ (st : WalkState) (e : ReadErr), processFiles fs st = Except.error e → e = ReadErr.decodeError := by
  induction fs with
  | nil => intro st e h; exact absurd h (by simp [processFiles])
  | cons f fs ih =>
    intro st e h
    rw [processFiles_cons] at h
    by_cases hbreak : MAX_FILES_TO_PROCESS ≤ st.total
    · rw [if_pos hbreak] at h; exact absurd h (by simp)
    rw [if_neg hbreak] at h
    by_cases h1 : nameExcluded f.name
    · rw [if_pos h1] at h; exact ih _ e h
    rw [if_neg h1] at h
    by_cases h2 : extExcluded f.name
    · rw [if_pos h2] at h; exact ih _ e h
    rw [if_neg h2] at h
    by_cases h3 : f.statOk = false
    · rw [if_pos h3] at h; exact ih _ e h
    rw [if_neg h3] at h
    by_cases h4 : MAX_FILE_SIZE < f.size
    · rw [if_pos h4] at h; exact ih _ e h
    rw [if_neg h4] at h
    by_cases h5 : is_binary_file f
    · rw [if_pos h5] at h; exact ih _ e h
    rw [if_neg h5] at h
    cases hr : f.readResult with
    | ok c => rw [add_file_to_conversation, hr] at h; exact ih _ e h
    | error er =>
      cases er with
      | osError => rw [add_file_to_conversation, hr] at h; exact ih _ e h
      | decodeError =>
        rw [add_file_to_conversation, hr] at h
        cases h; rfl

lemma processDirs_error (entries : List (List FileMeta)) :
    ∀ (st : WalkState) (e : ReadErr), processDirs entries st = Except.error e → e = ReadErr.decodeError := by
  induction entries with
  | nil => intro st e h; exact absurd h (by simp [processDirs])
  | cons files rest ih =>
    intro st e h
    rw [processDirs_cons] at h
    by_cases hbreak : MAX_FILES_TO_PROCESS ≤ st.total
    · rw [if_pos hbreak] at h; exact absurd h (by simp)
    rw [if_neg hbreak] at h
    cases hp : processFiles files st with
    | ok st2 => rw [hp] at h; exact ih st2 e h
    | error e2 =>
      rw [hp] at h
      cases h
      exact processFiles_error files st e hp

lemma candCount_cons_skip {f : FileMeta} (fs : List FileMeta) (hc : candidate f = false) :
    candCount (f :: fs) = candCount fs := by
  simp [candCount, List.countP_cons, hc]

lemma candCount_cons_accept {f : FileMeta} (fs : List FileMeta) (hc : candidate f = true) :
    candCount (f :: fs) = candCount fs + 1 := by
  simp [candCount, List.countP_cons, hc]

lemma processFiles_spec (fs : List FileMeta) : ∀ st : WalkState,
    fs.all fileNoDecode = true → st.total ≤ MAX_FILES_TO_PROCESS →
    ∃ st2, processFiles fs st = Except.ok st2 ∧
      st2.total = min MAX_FILES_TO_PROCESS (st.total + candCount fs) ∧
      st2.total ≤ MAX_FILES_TO_PROCESS ∧
      (st.added.length = st.total → st2.added.length = st2.total) := by
  induction fs with
  | nil =>
    intro st _ hle
    refine ⟨st, rfl, ?_, hle, fun h => h⟩
    have hz : candCount ([] : List FileMeta) = 0 := rfl
    rw [hz, Nat.add_zero, min_eq_right hle]
  | cons f fs ih =>
    intro st hnd hle
    rw [List.all_cons, Bool.and_eq_true] at hnd
    obtain ⟨hf, hfs⟩ := hnd
    by_cases hbreak : MAX_FILES_TO_PROCESS ≤ st.total
    · have heq : st.total = MAX_FILES_TO_PROCESS := Nat.le_antisymm hle hbreak
      refine ⟨st, ?_, ?_, hle, fun h => h⟩
      · rw [processFiles_cons, if_pos hbreak]
      · rw [heq, min_eq_left (Nat.le_add_right _ _)]
    · have hlt : st.total < MAX_FILES_TO_PROCESS := Nat.lt_of_le_of_ne hle (fun h => hbreak (Nat.le_of_eq h.symm))
      by_cases h1 : nameExcluded f.name
      · obtain ⟨st2, heq2, htot, hle2, hadd⟩ :=
          ih (skipFile st f.name SkipReason.hiddenOrExcludedName) hfs hle
        refine ⟨st2, ?_, ?_, hle2, hadd⟩
        · rw [processFiles_cons, if_neg hbreak, if_pos h1]; exact heq2
        · rw [htot, candCount_cons_skip fs (by simp [candidate, h1])]; rfl
      rw [Bool.not_eq_true] at h1
      by_cases h2 : extExcluded f.name
      · obtain ⟨st2, heq2, htot, hle2, hadd⟩ :=
          ih (skipFile st f.name SkipReason.excludedExtension) hfs hle
        refine ⟨st2, ?_, ?_, hle2, hadd⟩
        · rw [processFiles_cons, if_neg hbreak, if_neg (by simp [h1]), if_pos h2]; exact heq2
        · rw [htot, candCount_cons_skip fs (by simp [candidate, h2])]; rfl
      rw [Bool.not_eq_true] at h2
      by_cases h3 : f.statOk = false
      · obtain ⟨st2, heq2, htot, hle2, hadd⟩ :=
          ih (skipFile st f.name SkipReason.statError) hfs hle
        refine ⟨st2, ?_, ?_, hle2, hadd⟩
        · rw [processFiles_cons, if_neg hbreak, if_neg (by simp [h1]), if_neg (by simp [h2]),
            if_pos h3]
          exact heq2
        · rw [htot, candCount_cons_skip fs (by simp [candidate, h3])]; rfl
      have h3t : f.statOk = true := by
        cases hb : f.statOk
        · exact absurd hb h3
        · rfl
      by_cases h4 : MAX_FILE_SIZE < f.size
      · obtain ⟨st2, heq2, htot, hle2, hadd⟩ :=
          ih (skipFile st f.name SkipReason.oversize) hfs hle
        refine ⟨st2, ?_, ?_, hle2, hadd⟩
        · rw [processFiles_cons, if_neg hbreak, if_neg (by simp [h1]), if_neg (by simp [h2]),
            if_neg (by simp [h3t]), if_pos h4]
          exact heq2
        · rw [htot, candCount_cons_skip fs (by simp [candidate, h4])]; rfl
      by_cases h5 : is_binary_file f = true
      · obtain ⟨st2, heq2, htot, hle2, hadd⟩ :=
          ih (skipFile st f.name SkipReason.binary) hfs hle
        refine ⟨st2, ?_, ?_, hle2, hadd⟩
        · rw [processFiles_cons, if_neg hbreak, if_neg (by simp [h1]), if_neg (by simp [h2]),
            if_neg (by simp [h3t]), if_neg h4, if_pos h5]
          exact heq2
        · rw [htot, candCount_cons_skip fs (by simp [candidate, h5])]; rfl
      rw [Bool.not_eq_true] at h5
      have h5b : f.isBinary = false := h5
      have hc : candidate f = true := by
        simp [candidate, h1, h2, h3t, h5b, is_binary_file, decide_eq_false h4]
      have hsum : st.total + 1 + candCount fs = st.total + candCount (f :: fs) := by
        rw [candCount_cons_accept fs hc]; omega
      cases hr : f.readResult with
      | ok c =>
        obtain ⟨st2, heq2, htot, hle2, hadd⟩ :=
          ih (acceptFile st (st.conv ++ [ Entry.mk Role.system (fileEntryContent f.name c) ]) f.name)
            hfs hlt
        refine ⟨st2, ?_, ?_, hle2, ?_⟩
        · rw [processFiles_cons, if_neg hbreak, if_neg (by simp [h1]), if_neg (by simp [h2]),
            if_neg (by simp [h3t]), if_neg h4, if_neg (by simp [h5]), add_file_to_conversation, hr]
          exact heq2
        · rw [htot]
          show min MAX_FILES_TO_PROCESS (st.total + 1 + candCount fs) = _
          rw [hsum]
        · intro hinv
          apply hadd
          simp [acceptFile, hinv]
      | error er =>
        cases er with
        | decodeError => rw [fileNoDecode, hr] at hf; exact absurd hf (by simp)
        | osError =>
          obtain ⟨st2, heq2, htot, hle2, hadd⟩ := ih (acceptFile st st.conv f.name) hfs hlt
          refine ⟨st2, ?_, ?_, hle2, ?_⟩
          · rw [processFiles_cons, if_neg hbreak, if_neg (by simp [h1]), if_neg (by simp [h2]),
              if_neg (by simp [h3t]), if_neg h4, if_neg (by simp [h5]), add_file_to_conversation, hr]
            exact heq2
          · rw [htot]
            show min MAX_FILES_TO_PROCESS (st.total + 1 + candCount fs) = _
            rw [hsum]
          · intro hinv
            apply hadd
            simp [acceptFile, hinv]

lemma processDirs_spec (entries : List (List FileMeta)) : ∀ st : WalkState,
    noDecodeEntries entries = true → st.total ≤ MAX_FILES_TO_PROCESS →
    ∃ st2 hit, processDirs entries st = Except.ok (st2, hit) ∧
      st2.total = min MAX_FILES_TO_PROCESS (st.total + candSum entries) ∧
      st2.total ≤ MAX_FILES_TO_PROCESS ∧
      (st.added.length = st.total → st2.added.length = st2.total) := by
  induction entries with
  | nil =>
    intro st _ hle
    refine ⟨st, false, rfl, ?_, hle, fun h => h⟩
    have hz : candSum ([] : List (List FileMeta)) = 0 := rfl
    rw [hz, Nat.add_zero, min_eq_right hle]
  | cons files rest ih =>
    intro st hnd hle
    rw [noDecodeEntries, List.all_cons, Bool.and_eq_true] at hnd
    obtain ⟨hfl, hrest⟩ := hnd
    by_cases hbreak : MAX_FILES_TO_PROCESS ≤ st.total
    · have heq : st.total = MAX_FILES_TO_PROCESS := Nat.le_antisymm hle hbreak
      refine ⟨st, true, ?_, ?_, hle, fun h => h⟩
      · rw [processDirs_cons, if_pos hbreak]
      · rw [heq, min_eq_left (Nat.le_add_right _ _)]
    · obtain ⟨st2, heqF, htotF, hleF, haddF⟩ := processFiles_spec files st hfl hle
      obtain ⟨st3, hit, heqD, htotD, hleD, haddD⟩ := ih st2 hrest hleF
      refine ⟨st3, hit, ?_, ?_, hleD, fun h => haddD (haddF h)⟩
      · rw [processDirs_cons, if_neg hbreak, heqF]
        exact heqD
      · have hsum : candSum (files :: rest) = candCount files + candSum rest := rfl
        rw [htotD, htotF, hsum]
        omega

lemma all_replicate_of {α : Type} (p : α → Bool) (n : Nat) (x : α) (hp : p x = true) :
    (List.replicate n x).all p = true := by
  rw [List.all_eq_true]
  intro y hy
  rw [List.eq_of_mem_replicate hy]
  exact hp

lemma candCount_replicate (n : Nat) (f : FileMeta) (hc : candidate f = true) :
    candCount (List.replicate n f) = n := by
  induction n with
  | zero => rfl
  | succ m ih => rw [List.replicate_succ, candCount_cons_accept _ hc, ih]

lemma listReplaceFirst_of_prefix (old new s : List Char) (h : old.isPrefixOf s = true) :
    listReplaceFirst old new s = new ++ s.drop old.length := by
  cases s with
  | nil => rw [listReplaceFirst, if_pos h]
  | cons c rest => rw [listReplaceFirst, if_pos h]

lemma listReplaceFirst_not_prefix (old new : List Char) (c : Char) (rest : List Char)
    (h : old.isPrefixOf (c :: rest) = false) :
    listReplaceFirst old new (c :: rest) = c :: listReplaceFirst old new rest := by
  rw [listReplaceFirst, if_neg (by simp [h])]

lemma listReplaceFirst_leftmost : ∀ (a old b new : List Char),
    (∀ i, i < a.length → old.isPrefixOf ((a ++ (old ++ b)).drop i) = false) →
    listReplaceFirst old new (a ++ (old ++ b)) = a ++ (new ++ b) := by
  intro a
  induction a with
  | nil =>
    intro old b new _
    rw [List.nil_append, List.nil_append,
      listReplaceFirst_of_prefix old new (old ++ b)
        (List.isPrefixOf_iff_prefix.mpr (List.prefix_append old b)),
      List.drop_left]
  | cons c a2 ih =>
    intro old b new h
    have h0 := h 0 (Nat.succ_pos _)
    rw [List.cons_append, List.drop_zero] at h0
    rw [List.cons_append, List.cons_append, listReplaceFirst_not_prefix old new c _ h0]
    congr 1
    apply ih old b new
    intro i hi
    have hs := h (i + 1) (Nat.succ_lt_succ hi)
    rw [List.cons_append, List.drop_succ_cons] at hs
    exact hs

lemma mem_resolveStep {x : String} (acc : List String) (seg : String)
    (hx : x ∈ resolveStep acc seg) : x ∈ acc ∨ (x = seg ∧ seg ≠ "..") := by
  rw [resolveStep] at hx
  by_cases hseg : seg = ".."
  · rw [if_pos hseg] at hx
    exact Or.inl (List.dropLast_sublist acc |>.mem hx)
  · rw [if_neg hseg] at hx
    rcases List.mem_append.mp hx with h | h
    · exact Or.inl h
    · exact Or.inr ⟨List.mem_singleton.mp h, hseg⟩

lemma resolveStep_no_parent (acc : List String) (seg : String)
    (hacc : ( ".." : String) ∉ acc) : ( ".." : String) ∉ resolveStep acc seg := by
  intro hme
  rcases mem_resolveStep acc seg hme with h | h
  · exact hacc h
  · exact h.2 h.1.symm

lemma pyResolve_no_parent (cwd : List String) (p : PyPath)
    (hcwd : ( ".." : String) ∉ cwd) : ( ".." : String) ∉ pyResolve cwd p := by
  rw [pyResolve]
  have hbase : ( ".." : String) ∉ (if p.absolute then ([] : List String) else cwd) := by
    by_cases hab : p.absolute
    · rw [if_pos hab]; exact List.not_mem_nil _
    · rw [if_neg hab]; exact hcwd
  revert hbase
  generalize (if p.absolute then ([] : List String) else cwd) = acc
  induction p.segs generalizing acc with
  | nil => intro h; exact h
  | cons seg rest ih =>
    intro hacc
    rw [List.foldl_cons]
    exact ih (resolveStep acc seg) (resolveStep_no_parent acc seg hacc)

lemma normalize_path_never_rejects (cwd : List String) (p : PyPath)
    (hcwd : ( ".." : String) ∉ cwd) : normalize_path cwd p = Except.ok (pyResolve cwd p) := by
  have h2 := pyResolve_no_parent cwd p hcwd
  simp [normalize_path, h2]

/-- Claim C1: the spec says that when `original_snippet` does not occur in
the file, `apply_diff_edit` fails with SnippetNotFound and performs no
write.  The source has no occurrence check at all: evaluated on the file
content "hello world" and the absent snippet "xyz", the call reports the
edit as applied and performs a write (of the unchanged content), instead of
failing — `str.replace` with no match is a silent no-op and the
`except ValueError` arm that would report "No changes made" is dead code on
this path. -/
theorem claim1_missing_snippet_still_writes :
    apply_diff_edit (some (Except.ok helloContent)) missingSnippet replacementText =
      EditOutcome.mk EditStatus.applied (some (Except.ok helloContent)) true := rfl

/-- Claim C2: the spec says a user path containing parent-directory
references is rejected with InvalidPath.  In the source, `Path.resolve()`
runs first and eliminates every ".." segment, so the subsequent
`".." in path.parts` guard never fires: from working directory /home/user,
the traversal path ../secret resolves to /home/secret and `normalize_path`
accepts it. -/
theorem claim2_traversal_path_accepted :
    normalize_path [ "home", "user" ] (PyPath.mk false [ "..", "secret" ]) =
      Except.ok [ "home", "secret" ] := rfl

/-- Claim C9: for an existing readable file, an edit whose
`original_snippet` is the empty string is not rejected: Python
`content.replace("", new, 1)` inserts the replacement at position 0, so the
file is rewritten as `new_snippet` followed by the previous content
unchanged. -/
theorem claim9_empty_snippet_prepends (content new : String) :
    apply_diff_edit (some (Except.ok content)) ( "" : String) new =
      EditOutcome.mk EditStatus.applied
        (some (Except.ok (String.mk (new.toList ++ content.toList)))) true := by
  have hpre : (( "" : String).toList).isPrefixOf content.toList = true := by
    simp [List.isPrefixOf]
  simp only [apply_diff_edit, pyReplaceOnce,
    listReplaceFirst_of_prefix _ _ _ hpre]
  simp

/-- Claim C10: the single-file branch of `/add` applies no eligibility
rule whatsoever — the file record `f` is arbitrary in name, size and
binary-sniff verdict — and any file readable as UTF-8 text is appended
verbatim inside a system entry. -/
theorem claim10_single_file_unfiltered (hist : List Entry) (f : FileMeta) (c : String)
    (h : f.readResult = Except.ok c) :
    mainAddFile hist f = (hist ++ [ Entry.mk Role.system (fileEntryContent f.name c) ], true) := by
  simp [mainAddFile, add_file_to_conversation, h]

/-- Claim C10 witness: a hidden, denylisted, oversize, sniff-flagged file
is still ingested by the single-file path. -/
theorem claim10_witness :
    mainAddFile [] ineligibleButReadable =
      ([ Entry.mk Role.system (fileEntryContent ".env" "SECRET=1") ], true) :=
  claim10_single_file_unfiltered [] ineligibleButReadable "SECRET=1" rfl

/-- Claim C6: a raw payload whose `assistant_reply` binding is missing (or
is not text) fails interpretation with SchemaError, and no create or edit
mutation from that payload is applied, with or without user confirmation. -/
theorem claim6_missing_reply_fails (fs : List (String × JValue))
    (h : (lookupJ "assistant_reply" fs).bind asStr = none) :
    interpret (JValue.obj fs) = Except.error SchemaErr.schemaError ∧
      turnMutations (JValue.obj fs) true = [] ∧
      turnMutations (JValue.obj fs) false = [] := by
  have hi : interpret (JValue.obj fs) = Except.error SchemaErr.schemaError := by
    rw [interpret, h]
  exact ⟨hi, by rw [turnMutations, hi], by rw [turnMutations, hi]⟩

/-- Claim C6 witness: a payload carrying only a create instruction and no
`assistant_reply` is rejected whole. -/
theorem claim6_witness :
    interpret replyLessPayload = Except.error SchemaErr.schemaError ∧
      turnMutations replyLessPayload true = [] ∧
      turnMutations replyLessPayload false = [] :=
  claim6_missing_reply_fails _ rfl

/-- Claim C3 counterexample: a directory holding a file whose bytes pass
the binary sniff but are not valid UTF-8, followed by a perfectly fine text
file.  The claim predicts the first file is demoted to skipped and the walk
continues; in the source the UnicodeDecodeError is caught neither by
`add_file_to_conversation` (which catches only OSError) nor by the walk
loop (which also catches only OSError), so the whole walk aborts with the
exception and the second file is never ingested. -/
theorem claim3_counterexample :
    addDirectory [] decodeTree = Except.error ReadErr.decodeError := by
  have hw : walkEntries decodeTree = [ [ undecodableFile, laterGoodFile ] ] := by
    rw [decodeTree, walkEntries_dir, walkEntriesForest_nil]
  show processDirs (walkEntries decodeTree) (WalkState.mk [] 0 [] []) =
    Except.error ReadErr.decodeError
  rw [hw]
  rfl

/-- Claim C3 (amended): no read error terminates the session — the only
exception that can escape the directory walk is a UnicodeDecodeError, and
the `/add` handler of `main` catches it (UnicodeDecodeError is a
ValueError), so the outcome is a reported failure, never a crash. -/
theorem claim3_amended_only_decode_escapes (hist : List Entry) (t : FSTree) (e : ReadErr)
    (h : addDirectory hist t = Except.error e) :
    e = ReadErr.decodeError ∧ isCrash (mainAddDir hist t) = false := by
  have he : e = ReadErr.decodeError :=
    processDirs_error (walkEntries t) (WalkState.mk hist 0 [] []) e h
  refine ⟨he, ?_⟩
  rw [mainAddDir, h, he]
  rfl

/-- Claim C3 witness: on the concrete two-file directory the walk aborts
with the decode error and the session survives. -/
theorem claim3_witness : isCrash (mainAddDir [] decodeTree) = false := by
  have h : addDirectory [] decodeTree = Except.error ReadErr.decodeError := by
    have hw : walkEntries decodeTree = [ [ undecodableFile, laterGoodFile ] ] := by
      rw [decodeTree, walkEntries_dir, walkEntriesForest_nil]
    show processDirs (walkEntries decodeTree) (WalkState.mk [] 0 [] []) =
      Except.error ReadErr.decodeError
    rw [hw]
    rfl
  exact (claim3_amended_only_decode_escapes [] decodeTree ReadErr.decodeError h).2

/-- Claim C4: when the file content decomposes as `a ++ old ++ b` with no
occurrence of `old` beginning inside `a` (so the displayed occurrence is the
leftmost one), `apply_diff_edit` succeeds and writes `a ++ new ++ b`: it
replaces exactly the first occurrence and leaves the remainder — including
any later occurrence inside `b` — unchanged. -/
theorem claim4_replaces_first_occurrence (s old new : String) (a b : List Char)
    (hdecomp : s.toList = a ++ (old.toList ++ b))
    (hleft : ∀ i, i < a.length → old.toList.isPrefixOf (s.toList.drop i) = false) :
    apply_diff_edit (some (Except.ok s)) old new =
      EditOutcome.mk EditStatus.applied
        (some (Except.ok (String.mk (a ++ (new.toList ++ b))))) true := by
  have hrepl : listReplaceFirst old.toList new.toList (a ++ (old.toList ++ b)) =
      a ++ (new.toList ++ b) := by
    apply listReplaceFirst_leftmost
    intro i hi
    have hh := hleft i hi
    rwa [hdecomp] at hh
  simp only [apply_diff_edit, pyReplaceOnce, hdecomp, hrepl]

/-- Claim C4 witness: content "A-B-A", snippet "A", replacement "X" yields
"X-B-A" — the second occurrence of "A" is untouched. -/
theorem claim4_witness :
    apply_diff_edit (some (Except.ok ( "A-B-A" : String))) "A" "X" =
      EditOutcome.mk EditStatus.applied (some (Except.ok ( "X-B-A" : String))) true := by
  have h := claim4_replaces_first_occurrence "A-B-A" "A" "X" [] ( "-B-A" : String).toList
    rfl (fun i hi => absurd hi (by simp))
  exact h

/-- Claim C5 (amended): when the walk entries hold at least as many
acceptable files as the ceiling (and no file aborts the walk with a decode
error), the walk completes normally — a degradation, not an error — having
accepted exactly MAX_FILES_TO_PROCESS files. -/
theorem claim5_amended_ceiling (hist : List Entry) (t : FSTree)
    (hnd : noDecodeEntries (walkEntries t) = true)
    (hcand : MAX_FILES_TO_PROCESS ≤ candSum (walkEntries t)) :
    addedCountOf (addDirectory hist t) = some MAX_FILES_TO_PROCESS := by
  obtain ⟨st2, hit, heq, htot, hle2, hadd⟩ :=
    processDirs_spec (walkEntries t) (WalkState.mk hist 0 [] []) hnd (Nat.zero_le _)
  show addedCountOf (processDirs (walkEntries t) (WalkState.mk hist 0 [] [])) = _
  rw [heq]
  show some st2.added.length = some MAX_FILES_TO_PROCESS
  have h0 : (WalkState.mk hist 0 [] []).total = 0 := rfl
  rw [h0] at htot
  have htotv : st2.total = MAX_FILES_TO_PROCESS := by rw [htot]; omega
  rw [hadd rfl, htotv]

/-- Claim C5 counterexample: 1001 acceptable files located directly in the
ingested directory itself.  Exactly the ceiling of 1000 files is accepted —
but because the ceiling is reached during the last (and only) `os.walk`
entry, the outer loop never runs again and the maximum-file-limit warning
is not printed: the walk reports no partial-result degradation at all,
contradicting the claim that the partial result is reported. -/
theorem claim5_counterexample :
    MAX_FILES_TO_PROCESS < candSum (walkEntries bigTree) ∧
      addedCountOf (addDirectory [] bigTree) = some MAX_FILES_TO_PROCESS ∧
      limitHitOf (addDirectory [] bigTree) = some false := by
  have hw : walkEntries bigTree = [ List.replicate 1001 plainFile ] := by
    rw [bigTree, walkEntries_dir, walkEntriesForest_nil]
  have hcand : candidate plainFile = true := rfl
  have hsum : candSum (walkEntries bigTree) = 1001 := by
    rw [hw]
    show candCount (List.replicate 1001 plainFile) + 0 = 1001
    rw [candCount_replicate 1001 plainFile hcand]
  have hnd : (List.replicate 1001 plainFile).all fileNoDecode = true :=
    all_replicate_of fileNoDecode 1001 plainFile rfl
  obtain ⟨st2, heqF, htotF, hleF, haddF⟩ :=
    processFiles_spec (List.replicate 1001 plainFile) (WalkState.mk [] 0 [] []) hnd (Nat.zero_le _)
  have hrun : addDirectory [] bigTree = Except.ok (st2, false) := by
    show processDirs (walkEntries bigTree) (WalkState.mk [] 0 [] []) = _
    rw [hw, processDirs_cons,
      if_neg (show ¬ MAX_FILES_TO_PROCESS ≤ (WalkState.mk ([] : List Entry) 0 [] []).total by decide),
      heqF]
    rfl
  have htotv : st2.total = MAX_FILES_TO_PROCESS := by
    rw [htotF, candCount_replicate 1001 plainFile hcand]
    rfl
  refine ⟨?_, ?_, ?_⟩
  · rw [hsum]; decide
  · rw [hrun]
    show some st2.added.length = some MAX_FILES_TO_PROCESS
    rw [haddF rfl, htotv]
  · rw [hrun]
    rfl

/-- Claim C5 witness: the ceiling theorem applied to the 1001-file
directory. -/
theorem claim5_witness :
    addedCountOf (addDirectory [] bigTree) = some MAX_FILES_TO_PROCESS := by
  have hw : walkEntries bigTree = [ List.replicate 1001 plainFile ] := by
    rw [bigTree, walkEntries_dir, walkEntriesForest_nil]
  apply claim5_amended_ceiling [] bigTree
  · rw [hw, noDecodeEntries, List.all_cons, List.all_nil, Bool.and_true]
    exact all_replicate_of fileNoDecode 1001 plainFile rfl
  · rw [hw]
    show MAX_FILES_TO_PROCESS ≤ candCount (List.replicate 1001 plainFile) + 0
    rw [candCount_replicate 1001 plainFile rfl]
    decide

/-- Claim C7: within a directory ingestion, a file whose size is exactly
the 5,000,000-byte ceiling (all other rules passing) is accepted into the
conversation, while the same file one byte larger is demoted to skipped
with the oversize reason — the source test is a strict
`size > MAX_FILE_SIZE`. -/
theorem claim7_size_boundary (hist : List Entry) (n : String) (f : FileMeta) (c : String)
    (h1 : nameExcluded f.name = false) (h2 : extExcluded f.name = false)
    (h3 : f.statOk = true) (h5 : f.isBinary = false) (hr : f.readResult = Except.ok c) :
    (f.size = MAX_FILE_SIZE →
      addDirectory hist (FSTree.dir n FSForest.nil [ f ]) =
        Except.ok (WalkState.mk
          (hist ++ [ Entry.mk Role.system (fileEntryContent f.name c) ]) 1 [ f.name ] [], false)) ∧
    (f.size = MAX_FILE_SIZE + 1 →
      addDirectory hist (FSTree.dir n FSForest.nil [ f ]) =
        Except.ok (WalkState.mk hist 0 [] [ (f.name, SkipReason.oversize) ], false)) := by
  have hw : walkEntries (FSTree.dir n FSForest.nil [ f ]) = [ [ f ] ] := by
    rw [walkEntries_dir, walkEntriesForest_nil]
  constructor
  · intro hs
    show processDirs (walkEntries (FSTree.dir n FSForest.nil [ f ])) (WalkState.mk hist 0 [] []) = _
    rw [hw, processDirs_cons,
      if_neg (show ¬ MAX_FILES_TO_PROCESS ≤ (0 : Nat) by decide),
      processFiles_cons,
      if_neg (show ¬ MAX_FILES_TO_PROCESS ≤ (0 : Nat) by decide),
      if_neg (show ¬ nameExcluded f.name = true by simp [h1]),
      if_neg (show ¬ extExcluded f.name = true by simp [h2]),
      if_neg (show ¬ f.statOk = false by simp [h3]),
      if_neg (show ¬ MAX_FILE_SIZE < f.size by rw [hs]; omega),
      if_neg (show ¬ is_binary_file f = true by simp [is_binary_file, h5]),
      add_file_to_conversation, hr]
    rfl
  · intro hs
    show processDirs (walkEntries (FSTree.dir n FSForest.nil [ f ])) (WalkState.mk hist 0 [] []) = _
    rw [hw, processDirs_cons,
      if_neg (show ¬ MAX_FILES_TO_PROCESS ≤ (0 : Nat) by decide),
      processFiles_cons,
      if_neg (show ¬ MAX_FILES_TO_PROCESS ≤ (0 : Nat) by decide),
      if_neg (show ¬ nameExcluded f.name = true by simp [h1]),
      if_neg (show ¬ extExcluded f.name = true by simp [h2]),
      if_neg (show ¬ f.statOk = false by simp [h3]),
      if_pos (show MAX_FILE_SIZE < f.size by rw [hs]; omega)]
    rfl

/-- Claim C7 witness: the boundary evaluated on a concrete file of exactly
5,000,000 bytes and on one of 5,000,001 bytes. -/
theorem claim7_witness :
    addDirectory [] (FSTree.dir "d" FSForest.nil [ atLimitFile ]) =
      Except.ok (WalkState.mk
        [ Entry.mk Role.system (fileEntryContent "data.txt" "payload") ] 1 [ "data.txt" ] [], false) ∧
    addDirectory [] (FSTree.dir "d" FSForest.nil [ overLimitFile ]) =
      Except.ok (WalkState.mk [] 0 [] [ ( "data.txt", SkipReason.oversize) ], false) := by
  constructor
  · exact (claim7_size_boundary [] "d" atLimitFile "payload" rfl rfl rfl rfl rfl).1 rfl
  · exact (claim7_size_boundary [] "d" overLimitFile "payload" rfl rfl rfl rfl rfl).2 rfl

/-- Claim C8: a child directory whose name is denylisted or starts with a
dot is pruned before the walk descends, so the whole ingestion result — the
conversation entries, the counter, and the added and skipped reports — is
identical to the result on the tree with that subdirectory removed: no file
under it is ever sized, sniffed, read or recorded. -/
theorem claim8_pruned_subtree_invisible (hist : List Entry) (n : String) (files : List FileMeta)
    (s1 s2 : FSForest) (bad : FSTree)
    (h : startsWithDot (dirName bad) = true ∨ EXCLUDED_FILES.contains (dirName bad) = true) :
    addDirectory hist (FSTree.dir n (appendF s1 (FSForest.cons bad s2)) files) =
      addDirectory hist (FSTree.dir n (appendF s1 s2) files) := by
  have hk : keepDir bad = false := by
    rw [keepDir]
    rcases h with h | h <;> rw [h] <;> simp
  have hwf : walkEntriesForest (appendF s1 (FSForest.cons bad s2)) =
      walkEntriesForest (appendF s1 s2) := by
    rw [walkEntriesForest_append, walkEntriesForest_append, walkEntriesForest_cons, hk]
    simp
  show processDirs (walkEntries (FSTree.dir n (appendF s1 (FSForest.cons bad s2)) files)) _ =
    processDirs (walkEntries (FSTree.dir n (appendF s1 s2) files)) _
  rw [walkEntries_dir, walkEntries_dir, hwf]

/-- Claim C8 witness: a project tree with a node_modules subtree ingests
identically to the same tree without it. -/
theorem claim8_witness : addDirectory [] projWithDeps = addDirectory [] projWithoutDeps :=
  claim8_pruned_subtree_invisible [] "proj" [ laterGoodFile ] FSForest.nil FSForest.nil
    nodeModulesDir (Or.inr rfl)

end R1
